import Mathlib

/-!
# Verification of the `gt_extract.py` evidence-extraction engine

Shallow embedding of the SQLite ground-truth extractor: schema type
normalization, row-identity resolution, row streaming, the identifier /
temporal / relational detectors, and deduplication, together with proofs
of the specification claims about them.

Conventions of the embedding:
* SQLite cell values are modelled by `SqlVal` (NULL, integer, text); REAL
  and BLOB cells play no role in any claim.
* A `Table` carries its introspected column metadata and its rows, each row
  already paired with its resolved row-identity value (the result of
  evaluating the `rid_expr` of `pk_expression`).  The `broken` flag models a
  table whose row-selection query raises `sqlite3.OperationalError`.
* Python regular-expression matching (`EMAIL_RE`, `UUID_RE`, `ISO8601_RE`,
  the relational id-column pattern) is hand-compiled to character scanners
  that reproduce the backtracking engine's observable behaviour on the
  corresponding pattern.  Inputs are ASCII, so Python's Unicode-aware
  `\w`/`\d` coincide with the ASCII classes used here.
* `datetime.fromtimestamp(ts, tz=timezone.utc)` and `isoformat()` are
  modelled with exact integer arithmetic on the proleptic Gregorian
  calendar; float rounding in `ts / 1000.0` is observationally irrelevant
  for the year test and string below `2^53`, where division by 1000 of the
  relevant boundary values is exact.
-/

/-- A SQLite cell value as surfaced to the Python layer by `sqlite3`:
NULL, an integer, or a text string. -/
inductive SqlVal where
  | null : SqlVal
  | intv : Int → SqlVal
  | textv : String → SqlVal
deriving DecidableEq

/-- Python `str()` applied to a cell value (`str(val)` / `str(rid)` in the
source). -/
def pyStr : SqlVal → String
  | SqlVal.null => "None"
  | SqlVal.intv i => toString i
  | SqlVal.textv s => s

/-- ASCII upper-casing, character by character (Python `str.upper()` on
ASCII input; written over the character list so it evaluates by kernel
reduction). -/
def strUpper (s : String) : String := String.mk (s.data.map Char.toUpper)

/-- ASCII lower-casing, character by character (Python `str.lower()` on
ASCII input). -/
def strLower (s : String) : String := String.mk (s.data.map Char.toLower)

/-- ASCII whitespace for Python `str.strip()` / `int()` leading-space
handling. -/
def isSpaceChar (c : Char) : Bool :=
  c == ' ' || c == '\t' || c == '\n' || c == '\r' || c == '\x0b' || c == '\x0c'

/-- Python `s.strip()` on ASCII input, as a character list. -/
def pyStrip (s : String) : List Char :=
  ((s.data.dropWhile isSpaceChar).reverse.dropWhile isSpaceChar).reverse

/-- Decimal digit string to a natural number. -/
def digitsToNat : List Char → Nat
  | [] => 0
  | c :: rest => (c.toNat - '0'.toNat) * 10 ^ rest.length + digitsToNat rest

/-- Python `int(s)` on a string: optional surrounding whitespace, optional
sign, then decimal digits; anything else raises `ValueError` (`none`). -/
def pyIntOfString (s : String) : Option Int :=
  let t := pyStrip s
  let core : Option (Bool × List Char) :=
    match t with
    | '-' :: rest => some (true, rest)
    | '+' :: rest => some (false, rest)
    | rest => some (false, rest)
  match core with
  | some (neg, ds) =>
    if ds ≠ [] ∧ ds.all Char.isDigit then
      some (if neg then -(digitsToNat ds : Int) else (digitsToNat ds : Int))
    else none
  | none => none

/-- Python `int(val)` on a cell value as used at line 153 of the source;
`none` models a raised exception (caught by the surrounding `try`). -/
def pyInt : SqlVal → Option Int
  | SqlVal.null => none
  | SqlVal.intv i => some i
  | SqlVal.textv s => pyIntOfString s

/-- Column metadata as returned by `PRAGMA table_info`: name, declared
type, and whether the column is part of the declared primary key. -/
structure Col where
  name : String
  type : String
  pk : Bool
deriving DecidableEq

/-- Python `pat in hay` on strings: substring containment. -/
def strContains (hay pat : String) : Bool :=
  hay.data.tails.any (fun t => pat.data.isPrefixOf t)

/-- Type normalization from `get_table_info` (line 35 of the source): the
declared type is upper-cased; `CHAR`/`TEXT`/`CLOB` fold to `TEXT`, then
`INT` to `INT`, then `REAL`/`FLOA`/`DOUB` to `REAL`, and anything else is
kept as the upper-cased string `t`. -/
def type_norm (ty : String) : String :=
  let t := strUpper ty
  if strContains t "CHAR" || strContains t "TEXT" || strContains t "CLOB" then "TEXT"
  else if strContains t "INT" then "INT"
  else if strContains t "REAL" || strContains t "FLOA" || strContains t "DOUB" then "REAL"
  else t

/-- Heuristic column-name hint vocabulary for e-mail columns. -/
def TEXT_EMAIL_HINTS : List String := ["email", "e_mail", "mail"]

/-- Heuristic column-name hint vocabulary for phone columns. -/
def TEXT_PHONE_HINTS : List String := ["phone", "tel", "mobile", "msisdn"]

/-- Heuristic column-name hint vocabulary for UUID columns (defined in the
source but never consulted by any detector). -/
def TEXT_UUID_HINTS : List String := ["uuid", "guid"]

/-- Heuristic column-name hint vocabulary for time columns. -/
def TIME_HINTS : List String := ["time", "timestamp", "ts", "date", "datetime", "created_at", "updated_at"]

/-- `looks_like_time_column` from the source. -/
def looks_like_time_column (name : String) : Bool :=
  TIME_HINTS.any (fun h => strContains (strLower name) h)

/-- `looks_like_email_column` from the source. -/
def looks_like_email_column (name : String) : Bool :=
  TEXT_EMAIL_HINTS.any (fun h => strContains (strLower name) h)

/-- `looks_like_phone_column` from the source. -/
def looks_like_phone_column (name : String) : Bool :=
  TEXT_PHONE_HINTS.any (fun h => strContains (strLower name) h)

/-- `looks_like_uuid_column` from the source. -/
def looks_like_uuid_column (name : String) : Bool :=
  TEXT_UUID_HINTS.any (fun h => strContains (strLower name) h)

/-- `normalize_phone` from the source: strip all non-digits (`re.sub(r"\D",
"", s)`), reject digit counts below 10 or above 15, else prepend `+`.
(Both branches of the source's final conditional return `"+" + digits`.) -/
def normalize_phone (s : String) : Option String :=
  let digits := s.data.filter Char.isDigit
  if digits.length < 10 then none
  else if digits.length > 15 then none
  else some (String.mk ('+' :: digits))

/-- Days in the proleptic Gregorian calendar from 0001-01-01 to January 1
of year `y` (floor divisions; models CPython's `datetime` date arithmetic). -/
def daysBeforeYear (y : Int) : Int :=
  365 * (y - 1) + (y - 1) / 4 - (y - 1) / 100 + (y - 1) / 400

/-- The Gregorian year containing ordinal day `n` (days since 0001-01-01):
a first guess from the 400-year cycle average, corrected by at most one. -/
def yearOfOrdinal (n : Int) : Int :=
  let y0 := 400 * n / 146097 + 1
  if daysBeforeYear (y0 + 1) ≤ n then y0 + 1 else y0

/-- Gregorian leap-year test. -/
def isLeapYear (y : Int) : Bool :=
  (y % 4 == 0 && y % 100 != 0) || y % 400 == 0

/-- Month lengths for a common or leap year. -/
def monthLengths (leap : Bool) : List Nat :=
  if leap then [31, 29, 31, 30, 31, 30, 31, 31, 30, 31, 30, 31]
  else [31, 28, 31, 30, 31, 30, 31, 31, 30, 31, 30, 31]

/-- Walk a 0-based day-of-year through the month lengths, producing a
1-based (month, day). -/
def monthDayWalk : Nat → List Nat → Nat × Nat
  | d, [] => (1, d + 1)
  | d, len :: rest =>
    if d < len then (1, d + 1)
    else
      let md := monthDayWalk (d - len) rest
      (md.1 + 1, md.2)

/-- Calendar date (year, month, day) of ordinal day `n`. -/
def civilOfOrdinal (n : Int) : Int × Nat × Nat :=
  let y := yearOfOrdinal n
  let doy := (n - daysBeforeYear y).toNat
  let md := monthDayWalk doy (monthLengths (isLeapYear y))
  (y, md.1, md.2)

/-- Zero-pad the decimal representation of `n` to width `w`. -/
def padNum (w : Nat) (n : Nat) : String :=
  let s := toString n
  if s.length < w then String.mk (List.replicate (w - s.length) '0' ++ s.data)
  else s

/-- `epoch_to_iso` from the source: the ms/s heuristic (`ts >
1_000_000_000_000` means milliseconds, divide by 1000), then
`datetime.fromtimestamp(ts, tz=timezone.utc)`, the 1970-2100 year sanity
check, and `isoformat()` (which appends `+00:00`, and `.NNNNNN`
microseconds when the millisecond remainder is nonzero). -/
def epoch_to_iso (ts : Int) : Option String :=
  let secs := if ts > 1000000000000 then ts / 1000 else ts
  let fracMs := if ts > 1000000000000 then ts % 1000 else 0
  let day := secs / 86400
  let sod := secs % 86400
  let ymd := civilOfOrdinal (day + 719162)
  if ymd.1 < 1970 || ymd.1 > 2100 then none
  else
    some (padNum 4 ymd.1.toNat ++ "-" ++ padNum 2 ymd.2.1 ++ "-" ++ padNum 2 ymd.2.2 ++ "T" ++
      padNum 2 (sod / 3600).toNat ++ ":" ++ padNum 2 ((sod / 60) % 60).toNat ++ ":" ++
      padNum 2 (sod % 60).toNat ++
      (if fracMs == 0 then "" else "." ++ padNum 6 (fracMs * 1000).toNat) ++ "+00:00")

/-- Python `\w` on ASCII input: letters, digits, underscore. -/
def isWordChar (c : Char) : Bool := c.isAlphanum || c == '_'

/-- Word-ness of an optional preceding character (`none` = string edge,
which counts as non-word for `\b`). -/
def wordB : Option Char → Bool
  | none => false
  | some c => isWordChar c

/-- Character class `[A-Za-z0-9._%+-]` (the local part of `EMAIL_RE`). -/
def isLocalChar (c : Char) : Bool :=
  c.isAlphanum || c == '.' || c == '_' || c == '%' || c == '+' || c == '-'

/-- Character class `[A-Za-z0-9.-]` (the domain part of `EMAIL_RE`). -/
def isDomainChar (c : Char) : Bool := c.isAlphanum || c == '.' || c == '-'

/-- All decompositions `l = before ++ '.' :: after`, in ascending order of
`before` length. -/
def dotSplits : List Char → List (List Char × List Char)
  | [] => []
  | c :: rest =>
    (if c == '.' then [(([] : List Char), rest)] else []) ++
      (dotSplits rest).map (fun p => (c :: p.1, p.2))

/-- One attempted match of `EMAIL_RE` = `\b[A-Za-z0-9._%+-]+@[A-Za-z0-9.-]+
\.[A-Za-z]{2,}\b` at the current position (`prev` is the preceding
character).  The local and domain `+` repetitions are maximal munches (their
classes exclude the required next literal, so the engine cannot succeed on a
shorter munch); the engine then backtracks the domain munch to the rightmost
`.` whose alphabetic tail has length at least 2 and ends at a word boundary
(a shorter alphabetic tail is always followed by a letter, so only the
maximal tail can satisfy `\b`).  Returns the matched characters and the
remaining input. -/
def emailMatchAt (prev : Option Char) (l : List Char) : Option (List Char × List Char) :=
  match l with
  | [] => none
  | c :: _ =>
    if wordB prev == isWordChar c then none
    else
      let locPart := l.takeWhile isLocalChar
      let r1 := l.dropWhile isLocalChar
      if locPart.isEmpty then none
      else
        match r1 with
        | '@' :: r2 =>
          let dom := r2.takeWhile isDomainChar
          let r3 := r2.dropWhile isDomainChar
          if dom.isEmpty then none
          else
            let cand := ((dotSplits dom).reverse).find? (fun p =>
              let tail := p.2.takeWhile Char.isAlpha
              !p.1.isEmpty && decide (2 ≤ tail.length) &&
                !wordB ((p.2.drop tail.length ++ r3).head?))
            match cand with
            | some p =>
              let tail := p.2.takeWhile Char.isAlpha
              some (locPart ++ '@' :: p.1 ++ '.' :: tail, p.2.drop tail.length ++ r3)
            | none => none
        | _ => none

/-- Scanner for `EMAIL_RE.findall`: try a match at every position from left
to right, continuing after each match (fuel bounds the recursion; it is one
more than the input length, and every step consumes at least one character). -/
def emailFindAux : Nat → Option Char → List Char → List String
  | 0, _, _ => []
  | _, _, [] => []
  | fuel + 1, prev, c :: rest =>
    match emailMatchAt prev (c :: rest) with
    | some (m, r) => String.mk m :: emailFindAux fuel (m.reverse.head?) r
    | none => emailFindAux fuel (some c) rest

/-- `EMAIL_RE.findall(s)`. -/
def emailFindall (s : String) : List String :=
  emailFindAux (s.length + 1) none s.data

/-- Hex digit class `[0-9a-fA-F]`. -/
def isHexChar (c : Char) : Bool :=
  c.isDigit || ('a' ≤ c && c ≤ 'f') || ('A' ≤ c && c ≤ 'F')

/-- Consume exactly `n` characters satisfying `p`. -/
def takeCount (n : Nat) (p : Char → Bool) (l : List Char) : Option (List Char × List Char) :=
  match n, l with
  | 0, l => some ([], l)
  | _ + 1, [] => none
  | n + 1, c :: rest =>
    if p c then (takeCount n p rest).map (fun q => (c :: q.1, q.2)) else none

/-- Consume one character equal to `c`. -/
def expectChar (c : Char) (l : List Char) : Option (List Char) :=
  match l with
  | x :: rest => if x == c then some rest else none
  | [] => none

/-- One attempted match of `UUID_RE` = `\b[0-9a-fA-F]{8}-[0-9a-fA-F]{4}-
[1-5][0-9a-fA-F]{3}-[89abAB][0-9a-fA-F]{3}-[0-9a-fA-F]{12}\b` at the
current position (fixed 36-character shape, no backtracking). -/
def uuidMatchAt (prev : Option Char) (l : List Char) : Option (List Char × List Char) :=
  match l with
  | [] => none
  | c :: _ =>
    if wordB prev == isWordChar c then none
    else
      match takeCount 8 isHexChar l with
      | none => none
      | some (g1, r1) =>
      match expectChar '-' r1 with
      | none => none
      | some r2 =>
      match takeCount 4 isHexChar r2 with
      | none => none
      | some (g2, r3) =>
      match expectChar '-' r3 with
      | none => none
      | some r4 =>
      match takeCount 1 (fun ch => '1' ≤ ch && ch ≤ '5') r4 with
      | none => none
      | some (v1, r5) =>
      match takeCount 3 isHexChar r5 with
      | none => none
      | some (g3, r6) =>
      match expectChar '-' r6 with
      | none => none
      | some r7 =>
      match takeCount 1 (fun ch => ch == '8' || ch == '9' || ch == 'a' || ch == 'b' || ch == 'A' || ch == 'B') r7 with
      | none => none
      | some (v2, r8) =>
      match takeCount 3 isHexChar r8 with
      | none => none
      | some (g4, r9) =>
      match expectChar '-' r9 with
      | none => none
      | some r10 =>
      match takeCount 12 isHexChar r10 with
      | none => none
      | some (g5, r11) =>
        if wordB r11.head? then none
        else some (g1 ++ '-' :: g2 ++ '-' :: v1 ++ g3 ++ '-' :: v2 ++ g4 ++ '-' :: g5, r11)

/-- Scanner for `UUID_RE.findall`. -/
def uuidFindAux : Nat → Option Char → List Char → List String
  | 0, _, _ => []
  | _, _, [] => []
  | fuel + 1, prev, c :: rest =>
    match uuidMatchAt prev (c :: rest) with
    | some (m, r) => String.mk m :: uuidFindAux fuel (m.reverse.head?) r
    | none => uuidFindAux fuel (some c) rest

/-- `UUID_RE.findall(s)`. -/
def uuidFindall (s : String) : List String :=
  uuidFindAux (s.length + 1) none s.data

/-- Optional zone of `ISO8601_RE`: `Z` or `[+-]\d{2}:\d{2}`.  Returns the
remaining input on success. -/
def zoneMatch (l : List Char) : Option (List Char) :=
  match l with
  | 'Z' :: r => some r
  | c :: r =>
    if c == '+' || c == '-' then
      match takeCount 2 Char.isDigit r with
      | none => none
      | some (_, r1) =>
        match expectChar ':' r1 with
        | none => none
        | some r2 =>
          match takeCount 2 Char.isDigit r2 with
          | none => none
          | some (_, r3) => some r3
    else none
  | [] => none

/-- Clock part `\d{2}:\d{2}:\d{2}` of `ISO8601_RE`. -/
def clockMatch (l : List Char) : Option (List Char) :=
  match takeCount 2 Char.isDigit l with
  | none => none
  | some (_, r1) =>
    match expectChar ':' r1 with
    | none => none
    | some r2 =>
      match takeCount 2 Char.isDigit r2 with
      | none => none
      | some (_, r3) =>
        match expectChar ':' r3 with
        | none => none
        | some r4 =>
          match takeCount 2 Char.isDigit r4 with
          | none => none
          | some (_, r5) => some r5

/-- One attempted match of `ISO8601_RE` = `\b\d{4}-\d{2}-\d{2}(?:[ T]\d{2}:
\d{2}:\d{2}(?:\.\d+)?(?:Z|[+-]\d{2}:\d{2})?)?\b` at the current position.
The optional groups are tried greedily in engine order: fractional seconds
take the maximal digit run (a shorter run is followed by a digit, which can
satisfy neither the zone alternatives nor `\b`, so only the maximal run
matters), then the zone, then each optional group absent, finally the bare
date.  Each candidate end is accepted iff it sits on a word boundary. -/
def isoMatchAt (prev : Option Char) (l : List Char) : Bool :=
  match l with
  | [] => false
  | c :: _ =>
    if wordB prev == isWordChar c then false
    else
      match takeCount 4 Char.isDigit l with
      | none => false
      | some (_, r1) =>
      match expectChar '-' r1 with
      | none => false
      | some r2 =>
      match takeCount 2 Char.isDigit r2 with
      | none => false
      | some (_, r3) =>
      match expectChar '-' r3 with
      | none => false
      | some r4 =>
      match takeCount 2 Char.isDigit r4 with
      | none => false
      | some (_, r5) =>
        let dateEndOk := !wordB r5.head?
        let timeCand : Bool :=
          match r5 with
          | t :: r6 =>
            if t == ' ' || t == 'T' then
              match clockMatch r6 with
              | none => false
              | some r7 =>
                let fracCand : Bool :=
                  match r7 with
                  | '.' :: r8 =>
                    let ds := r8.takeWhile Char.isDigit
                    if ds.isEmpty then false
                    else
                      let r9 := r8.dropWhile Char.isDigit
                      (match zoneMatch r9 with
                       | some r10 => !wordB r10.head?
                       | none => false) || !wordB r9.head?
                  | _ => false
                fracCand ||
                  (match zoneMatch r7 with
                   | some r10 => !wordB r10.head?
                   | none => false) || !wordB r7.head?
            else false
          | [] => false
        timeCand || dateEndOk
      

/-- Scanner for `ISO8601_RE.search`: true iff a match exists at some
position. -/
def isoSearchAux : Option Char → List Char → Bool
  | _, [] => false
  | prev, c :: rest => isoMatchAt prev (c :: rest) || isoSearchAux (some c) rest

/-- `bool(ISO8601_RE.search(s))`. -/
def iso8601Search (s : String) : Bool :=
  isoSearchAux none s.data

/-- Keyword alternatives of the relational id-column pattern. -/
def LINK_KEYWORDS : List String :=
  ["user", "sender", "from", "src", "author", "owner", "recipient", "to", "dst", "peer"]

/-- `re.search(r"(?:^|_)(user|sender|from|src|author|owner|recipient|to|dst|
peer).*_?id$", name, re.I)`: at some position that is the string start or
preceded by `_`, one of the keywords occurs, and the remainder of the
(lower-cased) name after the keyword matches `.*_?id$`, which is equivalent
to ending in `id` (the `.*` absorbs everything up to an optional `_`). -/
def linkSearchAux : Option Char → List Char → Bool
  | prev, l =>
    (decide (prev = none ∨ prev = some '_') &&
      LINK_KEYWORDS.any (fun kw =>
        kw.data.isPrefixOf l && ['d', 'i'].isPrefixOf (l.drop kw.length).reverse)) ||
      match l with
      | [] => false
      | c :: rest => linkSearchAux (some c) rest

/-- Whether a column name matches the relational id-column pattern. -/
def isLinkColumn (name : String) : Bool :=
  linkSearchAux none (strLower name).data

/-- A table row: the resolved row-identity value (the evaluation of the
`rid_expr` produced by `pk_expression`) together with the cells, keyed by
column name. -/
structure Row where
  rid : SqlVal
  cells : List (String × SqlVal)
deriving DecidableEq

/-- Cell lookup by column name (missing columns read as NULL). -/
def getCell (r : Row) (c : String) : SqlVal :=
  match r.cells.lookup c with
  | some v => v
  | none => SqlVal.null

/-- A table as seen by the extractor: name, `PRAGMA table_info` metadata,
rows, and a flag modelling a table whose row-selection queries raise
`sqlite3.OperationalError` (e.g. a `WITHOUT ROWID` table with no declared
primary key, queried through the `rowid` fallback). -/
structure Table where
  name : String
  cols : List Col
  rows : List Row
  broken : Bool
deriving DecidableEq

/-- `fetch_distinct` from the source: stream `(rid, value)` for the non-NULL
values of one column; an `OperationalError` (the `broken` flag) yields
nothing. -/
def fetch_distinct (t : Table) (col : String) : List (SqlVal × SqlVal) :=
  if t.broken then []
  else
    t.rows.filterMap (fun r =>
      let v := getCell r col
      if v = SqlVal.null then none else some (r.rid, v))

/-- One extracted finding, mirroring the source's result dictionaries;
`raw` is only populated by the numeric-epoch path of `extract_temporal`. -/
structure EvidenceRecord where
  entity_type : String
  subtype : String
  value : String
  table : String
  rowid : String
  column : String
  raw : Option String := none
deriving DecidableEq

/-- The full 6-field dedup key `("entity_type","subtype","value","table",
"rowid","column")` used by both `dedupe` call sites. -/
def key6 (r : EvidenceRecord) : String × String × String × String × String × String :=
  (r.entity_type, r.subtype, r.value, r.table, r.rowid, r.column)

/-- Worker of `dedupe`: `seen` is the set of keys already emitted. -/
def dedupeAux (seen : List (String × String × String × String × String × String)) :
    List EvidenceRecord → List EvidenceRecord
  | [] => []
  | x :: xs =>
    if key6 x ∈ seen then dedupeAux seen xs
    else x :: dedupeAux (key6 x :: seen) xs

/-- `dedupe` from the source with the 6-field key: keep the first record of
each key, in input order. -/
def dedupe (items : List EvidenceRecord) : List EvidenceRecord :=
  dedupeAux [] items

/-- `extract_identifiers` from the source: a column is scanned iff its
normalized type is `TEXT` or its name matches the e-mail or phone hint
vocabulary; each scanned value is run through the e-mail and UUID regexes
and, when the column name is phone-like or the value contains a digit,
through `normalize_phone`. -/
def extract_identifiers (t : Table) : List EvidenceRecord :=
  t.cols.flatMap (fun c =>
    if type_norm c.type != "TEXT" && !looks_like_email_column c.name &&
        !looks_like_phone_column c.name then []
    else
      (fetch_distinct t c.name).flatMap (fun rv =>
        let s := pyStr rv.2
        ((emailFindall s).map (fun m =>
          { entity_type := "Identifier", subtype := "Email", value := m,
            table := t.name, rowid := pyStr rv.1, column := c.name })) ++
        ((uuidFindall s).map (fun m =>
          { entity_type := "Identifier", subtype := "UUID", value := strLower m,
            table := t.name, rowid := pyStr rv.1, column := c.name })) ++
        (match (if looks_like_phone_column c.name || s.data.any Char.isDigit
                then normalize_phone s else none) with
         | some norm =>
           [{ entity_type := "Identifier", subtype := "Phone", value := norm,
              table := t.name, rowid := pyStr rv.1, column := c.name }]
         | none => [])))

/-- `extract_temporal` from the source: per column, the integer path (type
`INT` or a time-like name; `int(val)` then `epoch_to_iso`, exceptions
swallowed) followed by the text path (type `TEXT` or a time-like name;
`ISO8601_RE.search`), then a per-table `dedupe`. -/
def extract_temporal (t : Table) : List EvidenceRecord :=
  dedupe <| t.cols.flatMap (fun c =>
    (if type_norm c.type == "INT" || looks_like_time_column c.name then
      (fetch_distinct t c.name).flatMap (fun rv =>
        match pyInt rv.2 with
        | some i =>
          match epoch_to_iso i with
          | some iso =>
            [{ entity_type := "Temporal", subtype := "UnixEpoch", value := iso,
               raw := some (pyStr rv.2), table := t.name, rowid := pyStr rv.1,
               column := c.name }]
          | none => []
        | none => [])
     else []) ++
    (if type_norm c.type == "TEXT" || looks_like_time_column c.name then
      (fetch_distinct t c.name).filterMap (fun rv =>
        let s := pyStr rv.2
        if iso8601Search s then
          some { entity_type := "Temporal", subtype := "ISO8601", value := s,
                 table := t.name, rowid := pyStr rv.1, column := c.name }
        else none)
     else []))

/-- Priority keywords for the source side of a relational pair. -/
def SEND_PRIORITY : List String := ["sender", "from", "src", "author", "owner", "user"]

/-- Priority keywords for the destination side of a relational pair. -/
def RECV_PRIORITY : List String := ["recipient", "to", "dst", "peer", "user"]

/-- The `score` closure of `extract_relational`: rank of the first keyword
contained in the lower-cased column name (`len(keys) - i`), zero if none
matches. -/
def kwScore (col : String) (keys : List String) : Nat :=
  match keys.findIdx? (fun k => strContains (strLower col) k) with
  | some i => keys.length - i
  | none => 0

/-- Score of an ordered column pair: source-side rank plus destination-side
rank. -/
def pairScore (ab : String × String) : Nat :=
  kwScore ab.1 SEND_PRIORITY + kwScore ab.2 RECV_PRIORITY

/-- All ordered pairs of distinct id-like columns, in the nested-loop order
of the source. -/
def relPairs (idCols : List String) : List (String × String) :=
  idCols.flatMap (fun a => idCols.filterMap (fun b => if a ≠ b then some (a, b) else none))

/-- One step of a stable descending insertion sort on pair scores: `x` is
placed before the first element whose score does not exceed its own, so an
element inserted earlier in the original order stays ahead of equal scores. -/
def insertByScore (x : String × String) : List (String × String) → List (String × String)
  | [] => [x]
  | y :: ys =>
    if pairScore y ≤ pairScore x then x :: y :: ys
    else y :: insertByScore x ys

/-- The pair list after `pairs.sort(key=..., reverse=True)`: the unique
stable ordering by descending score (Python's stable sort and this
insertion sort agree, since stability plus sortedness determine the
output). -/
def sortedRelPairs (idCols : List String) : List (String × String) :=
  (relPairs idCols).foldr insertByScore []

/-- The `id_cols` list of `extract_relational`: columns whose name matches
the id-like link pattern. -/
def idColsOf (t : Table) : List String :=
  (t.cols.filter (fun c => isLinkColumn c.name)).map (fun c => c.name)

/-- `extract_relational` from the source: id-like columns by name pattern;
if at least two, all ordered distinct pairs, stably sorted by descending
score, truncated to the top two; one record per retained pair and per row
with both sides non-NULL (a query failure on the pair skips that pair). -/
def extract_relational (t : Table) : List EvidenceRecord :=
  let idCols := idColsOf t
  if 2 ≤ idCols.length then
    ((sortedRelPairs idCols).take 2).flatMap (fun ab =>
      if t.broken then []
      else
        t.rows.filterMap (fun r =>
          let va := getCell r ab.1
          let vb := getCell r ab.2
          if va ≠ SqlVal.null ∧ vb ≠ SqlVal.null then
            some { entity_type := "Relational", subtype := ab.1 ++ "->" ++ ab.2,
                   value := pyStr va ++ "->" ++ pyStr vb, table := t.name,
                   rowid := pyStr r.rid, column := ab.1 ++ "," ++ ab.2 }
          else none))
  else []

/-- The per-table record stream of `main`: identifiers, then temporal, then
relational. -/
def extractTable (t : Table) : List EvidenceRecord :=
  extract_identifiers t ++ extract_temporal t ++ extract_relational t

/-- The whole run of `main` over the introspected tables (all entity
classes selected): concatenate per-table streams, then the final `dedupe`. -/
def run_all (ts : List Table) : List EvidenceRecord :=
  dedupe (ts.flatMap extractTable)

/-- The resolved row-identity policy of `pk_expression`. -/
inductive PkSpec where
  | single : String → PkSpec
  | composite : List String → PkSpec
  | rowidFallback : PkSpec
deriving DecidableEq

/-- `pk_expression` from the source: one declared primary-key column gives
that column, several give the composite `CAST .. || '|' || ..` expression,
none gives the `rowid` fallback. -/
def pk_expression (cols : List Col) : PkSpec :=
  match (cols.filter (fun c => c.pk)).map (fun c => c.name) with
  | [c] => PkSpec.single c
  | [] => PkSpec.rowidFallback
  | cs => PkSpec.composite cs

/-- The row-identity value produced by the composite-key expression
`CAST(c1 AS TEXT) || '|' || CAST(c2 AS TEXT) || ...` for one row, given the
text-cast key values in declared order. -/
def compositeIdentity : List String → String
  | [] => ""
  | [v] => v
  | v :: vs => v ++ "|" ++ compositeIdentity vs

/-- The numeric part of the claims' amended epoch characterization: the
seconds value after the ms/s disambiguation of `epoch_to_iso`. -/
def epochSeconds (ts : Int) : Int :=
  if ts > 1000000000000 then ts / 1000 else ts

/-- The `messages` table of the specification scenario:
`messages(id INTEGER PRIMARY KEY, sender_id INT, recipient_id INT, body
TEXT, sent_at INTEGER)` with the single row
`(1, 10, 20, "contact me at a@b.com", 1700000000)`; the declared primary
key `id` resolves the row identity to `1`. -/
def messagesTable : Table :=
  { name := "messages",
    cols := [
      { name := "id", type := "INTEGER", pk := true },
      { name := "sender_id", type := "INT", pk := false },
      { name := "recipient_id", type := "INT", pk := false },
      { name := "body", type := "TEXT", pk := false },
      { name := "sent_at", type := "INTEGER", pk := false }],
    rows := [
      { rid := SqlVal.intv 1,
        cells := [
          ("id", SqlVal.intv 1),
          ("sender_id", SqlVal.intv 10),
          ("recipient_id", SqlVal.intv 20),
          ("body", SqlVal.textv "contact me at a@b.com"),
          ("sent_at", SqlVal.intv 1700000000)] }],
    broken := false }

/-- A one-column, one-row table whose only column is declared `INT` and
holds the integer `i`; used to probe the temporal detector. -/
def intColumnTable (nm : String) (rid i : Int) : Table :=
  { name := "t",
    cols := [{ name := nm, type := "INT", pk := false }],
    rows := [{ rid := SqlVal.intv rid, cells := [(nm, SqlVal.intv i)] }],
    broken := false }

/-- A one-column table with an `INTEGER` column named `phone` holding a
UUID-shaped text value. -/
def phoneUuidTable : Table :=
  { name := "p",
    cols := [{ name := "phone", type := "INTEGER", pk := false }],
    rows := [{ rid := SqlVal.intv 1,
               cells := [("phone", SqlVal.textv "123e4567-e89b-12d3-a456-426614174000")] }],
    broken := false }

/-- A one-column table with an `INT` column named `email` holding a 10-digit
integer. -/
def emailPhoneTable : Table :=
  { name := "e",
    cols := [{ name := "email", type := "INT", pk := false }],
    rows := [{ rid := SqlVal.intv 1, cells := [("email", SqlVal.intv 5551234567)] }],
    broken := false }

/-- A one-column table with an `INTEGER` column named `uuid` holding a
UUID-shaped text value. -/
def uuidNamedTable : Table :=
  { name := "u",
    cols := [{ name := "uuid", type := "INTEGER", pk := false }],
    rows := [{ rid := SqlVal.intv 1,
               cells := [("uuid", SqlVal.textv "123e4567-e89b-12d3-a456-426614174000")] }],
    broken := false }

set_option maxHeartbeats 8000000 in
/-- The year of an ordinal day lies in 1970..2100 exactly for the ordinals
of 1970-01-01 (719162) through 2100-12-31 (767008). -/
theorem yearOfOrdinal_range (n : Int) :
    (1970 ≤ yearOfOrdinal n ∧ yearOfOrdinal n ≤ 2100) ↔ (719162 ≤ n ∧ n < 767009) := by
  unfold yearOfOrdinal daysBeforeYear
  simp only []
  constructor
  · intro h
    have hq : (1968 : Int) ≤ 400 * n / 146097 ∧ 400 * n / 146097 ≤ 2099 := by
      split at h <;> omega
    set q : Int := 400 * n / 146097 with hqdef
    have hqn : 0 ≤ 400 * n - 146097 * q ∧ 400 * n - 146097 * q < 146097 := by omega
    clear_value q
    obtain ⟨hq1, hq2⟩ := hq
    interval_cases q <;> split at h <;> omega
  · intro h
    have hq : (1968 : Int) ≤ 400 * n / 146097 ∧ 400 * n / 146097 ≤ 2099 := by omega
    set q : Int := 400 * n / 146097 with hqdef
    have hqn : 0 ≤ 400 * n - 146097 * q ∧ 400 * n - 146097 * q < 146097 := by omega
    clear_value q
    obtain ⟨hq1, hq2⟩ := hq
    interval_cases q <;> split <;> omega

/-- `epoch_to_iso` succeeds exactly when the disambiguated seconds value
lies in `[0, 4133980800)`, i.e. when the UTC year is in 1970..2100. -/
theorem epoch_to_iso_isSome (ts : Int) :
    (epoch_to_iso ts).isSome = true ↔
      (0 ≤ epochSeconds ts ∧ epochSeconds ts < 4133980800) := by
  unfold epoch_to_iso epochSeconds civilOfOrdinal
  simp only []
  have hy := yearOfOrdinal_range ((if ts > 1000000000000 then ts / 1000 else ts) / 86400 + 719162)
  split
  case isTrue hms =>
    rw [if_pos hms] at hy
    split
    case isTrue h =>
      simp only [Bool.or_eq_true, decide_eq_true_eq] at h
      simp only [Option.isSome_none, Bool.false_eq_true, false_iff]
      omega
    case isFalse h =>
      simp only [Bool.or_eq_true, decide_eq_true_eq, not_or, not_lt] at h
      simp only [Option.isSome_some, true_iff]
      omega
  case isFalse hms =>
    rw [if_neg hms] at hy
    split
    case isTrue h =>
      simp only [Bool.or_eq_true, decide_eq_true_eq] at h
      simp only [Option.isSome_none, Bool.false_eq_true, false_iff]
      omega
    case isFalse h =>
      simp only [Bool.or_eq_true, decide_eq_true_eq, not_or, not_lt] at h
      simp only [Option.isSome_some, true_iff]
      omega

/-- The deduplicated list is a sublist of the input (order preserved). -/
theorem dedupeAux_sublist (seen : List (String × String × String × String × String × String))
    (l : List EvidenceRecord) : (dedupeAux seen l).Sublist l := by
  induction l generalizing seen with
  | nil => simp [dedupeAux]
  | cons x xs ih =>
    simp only [dedupeAux]
    split
    · exact List.Sublist.cons x (ih seen)
    · exact List.Sublist.cons₂ x (ih (key6 x :: seen))

/-- No emitted record carries a key already in `seen`. -/
theorem dedupeAux_not_seen (seen : List (String × String × String × String × String × String))
    (l : List EvidenceRecord) (r : EvidenceRecord) (hr : r ∈ dedupeAux seen l) :
    key6 r ∉ seen := by
  induction l generalizing seen with
  | nil => simp [dedupeAux] at hr
  | cons x xs ih =>
    simp only [dedupeAux] at hr
    split at hr
    · exact ih seen hr
    · rcases List.mem_cons.mp hr with h | h
      · subst h; assumption
      · intro hmem
        exact ih (key6 x :: seen) h (List.mem_cons_of_mem _ hmem)

/-- Emitted records have pairwise distinct keys. -/
theorem dedupeAux_pairwise (seen : List (String × String × String × String × String × String))
    (l : List EvidenceRecord) :
    List.Pairwise (fun a b => key6 a ≠ key6 b) (dedupeAux seen l) := by
  induction l generalizing seen with
  | nil => simp [dedupeAux]
  | cons x xs ih =>
    simp only [dedupeAux]
    split
    · exact ih seen
    · refine List.pairwise_cons.mpr ⟨?_, ih (key6 x :: seen)⟩
      intro b hb he
      exact dedupeAux_not_seen _ _ _ hb (he ▸ List.mem_cons_self _ _)

/-- Every emitted record is the first record of the input with its key. -/
theorem dedupeAux_first (seen : List (String × String × String × String × String × String))
    (l : List EvidenceRecord) (r : EvidenceRecord) (hr : r ∈ dedupeAux seen l) :
    l.find? (fun z => decide (key6 z = key6 r)) = some r := by
  induction l generalizing seen with
  | nil => simp [dedupeAux] at hr
  | cons x xs ih =>
    simp only [dedupeAux] at hr
    split at hr
    · rename_i hx
      have hne : key6 x ≠ key6 r := by
        intro he
        exact dedupeAux_not_seen seen xs r hr (he ▸ hx)
      rw [List.find?_cons_of_neg _ (by simpa using hne)]
      exact ih seen hr
    · rcases List.mem_cons.mp hr with h | h
      · subst h
        rw [List.find?_cons_of_pos _ (by simp)]
      · have hnotin := dedupeAux_not_seen (key6 x :: seen) xs r h
        have hne : key6 x ≠ key6 r := by
          intro he
          exact hnotin (he ▸ List.mem_cons_self _ _)
        rw [List.find?_cons_of_neg _ (by simpa using hne)]
        exact ih (key6 x :: seen) h

/-- Claim C3: for every input list, `dedupe` returns a list in which no two
records share the 6-field key, every surviving record is the first
occurrence of its key in the input, and survivors keep their input order
(the output is a sublist of the input). -/
theorem dedupe_first_seen_order (l : List EvidenceRecord) :
    List.Pairwise (fun a b => key6 a ≠ key6 b) (dedupe l) ∧
      (dedupe l).Sublist l ∧
      ∀ r ∈ dedupe l, l.find? (fun z => decide (key6 z = key6 r)) = some r := by
  exact ⟨dedupeAux_pairwise [] l, dedupeAux_sublist [] l,
    fun r hr => dedupeAux_first [] l r hr⟩

/-- Claim C3 witness: the first-occurrence conjunct applied to a concrete
two-record input with a duplicated key and a concrete surviving record. -/
theorem dedupe_first_seen_order_witness :
    [({ entity_type := "Identifier", subtype := "Email", value := "a@b.com",
        table := "m", rowid := "1", column := "body" } : EvidenceRecord),
      { entity_type := "Identifier", subtype := "Email", value := "a@b.com",
        table := "m", rowid := "1", column := "body" }].find?
      (fun z => decide (key6 z =
        key6 { entity_type := "Identifier", subtype := "Email", value := "a@b.com",
               table := "m", rowid := "1", column := "body" })) =
      some { entity_type := "Identifier", subtype := "Email", value := "a@b.com",
             table := "m", rowid := "1", column := "body" } :=
  (dedupe_first_seen_order _).2.2
    { entity_type := "Identifier", subtype := "Email", value := "a@b.com",
      table := "m", rowid := "1", column := "body" } (by decide)

/-- Claim C1 counterexample: the full extraction over the scenario table
yields seven records, not the three the claim demands. -/
theorem scenario_messages_not_three :
    (run_all [messagesTable]).length = 7 ∧ (run_all [messagesTable]).length ≠ 3 := by
  decide

/-- Claim C1, amended: the run yields exactly seven records — the stated
Email, Temporal (sent_at) and sender->recipient Relational records, plus
three further UnixEpoch records (the 1970-2100 sanity window of
`epoch_to_iso` accepts the small integers 1, 10, 20 in columns `id`,
`sender_id`, `recipient_id`) and the reverse Relational pair
`recipient_id->sender_id` (the detector keeps the top two scored pairs and
only two exist). -/
theorem scenario_messages_full_output :
    run_all [messagesTable] = [
      { entity_type := "Identifier", subtype := "Email", value := "a@b.com",
        table := "messages", rowid := "1", column := "body" },
      { entity_type := "Temporal", subtype := "UnixEpoch", value := "1970-01-01T00:00:01+00:00",
        table := "messages", rowid := "1", column := "id", raw := some "1" },
      { entity_type := "Temporal", subtype := "UnixEpoch", value := "1970-01-01T00:00:10+00:00",
        table := "messages", rowid := "1", column := "sender_id", raw := some "10" },
      { entity_type := "Temporal", subtype := "UnixEpoch", value := "1970-01-01T00:00:20+00:00",
        table := "messages", rowid := "1", column := "recipient_id", raw := some "20" },
      { entity_type := "Temporal", subtype := "UnixEpoch", value := "2023-11-14T22:13:20+00:00",
        table := "messages", rowid := "1", column := "sent_at", raw := some "1700000000" },
      { entity_type := "Relational", subtype := "sender_id->recipient_id", value := "10->20",
        table := "messages", rowid := "1", column := "sender_id,recipient_id" },
      { entity_type := "Relational", subtype := "recipient_id->sender_id", value := "20->10",
        table := "messages", rowid := "1", column := "recipient_id,sender_id" }] := by
  decide

/-- Claim C9: 1700000000 seconds and 1700000000000 milliseconds normalize
to the same canonical ISO-8601 UTC instant. -/
theorem epoch_disambiguation_same_instant :
    epoch_to_iso 1700000000 = some "2023-11-14T22:13:20+00:00" ∧
      epoch_to_iso 1700000000000 = epoch_to_iso 1700000000 := by
  decide

/-- Claim C8 counterexample: the declared type `blob` falls through every
keyword test, and the normalized class is the upper-cased `BLOB`, not the
verbatim string `blob`. -/
theorem type_norm_not_verbatim :
    type_norm "blob" = "BLOB" ∧ type_norm "blob" ≠ "blob" := by
  decide

/-- Claim C8, amended: the keyword tests are performed on the upper-cased
declared type, folding to `TEXT`, then `INT`, then `REAL` in that priority
order, and any other type string is retained in upper-cased form. -/
theorem type_norm_folding (ty : String) :
    ((strContains (strUpper ty) "CHAR" || strContains (strUpper ty) "TEXT" ||
        strContains (strUpper ty) "CLOB") = true → type_norm ty = "TEXT") ∧
    ((strContains (strUpper ty) "CHAR" || strContains (strUpper ty) "TEXT" ||
        strContains (strUpper ty) "CLOB") = false →
      strContains (strUpper ty) "INT" = true → type_norm ty = "INT") ∧
    ((strContains (strUpper ty) "CHAR" || strContains (strUpper ty) "TEXT" ||
        strContains (strUpper ty) "CLOB") = false →
      strContains (strUpper ty) "INT" = false →
      (strContains (strUpper ty) "REAL" || strContains (strUpper ty) "FLOA" ||
        strContains (strUpper ty) "DOUB") = true → type_norm ty = "REAL") ∧
    ((strContains (strUpper ty) "CHAR" || strContains (strUpper ty) "TEXT" ||
        strContains (strUpper ty) "CLOB") = false →
      strContains (strUpper ty) "INT" = false →
      (strContains (strUpper ty) "REAL" || strContains (strUpper ty) "FLOA" ||
        strContains (strUpper ty) "DOUB") = false → type_norm ty = strUpper ty) := by
  refine ⟨?_, ?_, ?_, ?_⟩ <;> intros <;> simp [type_norm, *]

/-- Claim C8 witness: the amended folding applied to the concrete declared
types `blob` and `varchar(20)`. -/
theorem type_norm_folding_witness :
    type_norm "blob" = strUpper "blob" ∧ type_norm "varchar(20)" = "TEXT" :=
  ⟨(type_norm_folding "blob").2.2.2 (by decide) (by decide) (by decide),
   (type_norm_folding "varchar(20)").1 (by decide)⟩

/-- Claim C6: phone normalization keeps exactly the digits, rejects digit
counts below 10 or above 15 with no finding, and otherwise returns `+`
followed by those digits; in particular `"(555) 123-4567"` gives
`"+5551234567"` and `"12345"` gives nothing. -/
theorem normalize_phone_spec :
    (∀ s : String,
      (((s.data.filter Char.isDigit).length < 10 ∨
          15 < (s.data.filter Char.isDigit).length) → normalize_phone s = none) ∧
      (10 ≤ (s.data.filter Char.isDigit).length →
        (s.data.filter Char.isDigit).length ≤ 15 →
        normalize_phone s = some (String.mk ('+' :: s.data.filter Char.isDigit)))) ∧
    normalize_phone "(555) 123-4567" = some "+5551234567" ∧
    normalize_phone "12345" = none := by
  refine ⟨fun s => ⟨?_, ?_⟩, by decide, by decide⟩
  · intro h
    unfold normalize_phone
    rcases h with h | h
    · rw [if_pos h]
    · rw [if_neg (by omega), if_pos (by omega)]
  · intro h1 h2
    unfold normalize_phone
    rw [if_neg (by omega), if_neg (by omega)]

/-- Claim C6 witness: the in-range branch applied to the concrete input
`"(555) 123-4567"`. -/
theorem normalize_phone_spec_witness :
    normalize_phone "(555) 123-4567" =
      some (String.mk ('+' :: "(555) 123-4567".data.filter Char.isDigit)) :=
  (normalize_phone_spec.1 "(555) 123-4567").2 (by decide) (by decide)

/-- A failing row query yields an empty stream for every column. -/
theorem fetch_distinct_broken (t : Table) (hb : t.broken = true) (c : String) :
    fetch_distinct t c = [] := by
  unfold fetch_distinct
  rw [hb]
  simp

/-- A table whose row queries fail contributes no records at all. -/
theorem extractTable_broken (t : Table) (hb : t.broken = true) :
    extractTable t = [] := by
  have h1 : extract_identifiers t = [] := by
    unfold extract_identifiers
    rw [List.flatMap_eq_nil_iff]
    intro c _
    rw [fetch_distinct_broken t hb]
    split <;> simp
  have h2 : extract_temporal t = [] := by
    unfold extract_temporal
    have hnil : ∀ L : List EvidenceRecord, L = [] → dedupe L = [] := by
      rintro _ rfl; rfl
    apply hnil
    rw [List.flatMap_eq_nil_iff]
    intro c _
    rw [fetch_distinct_broken t hb]
    split <;> split <;> simp
  have h3 : extract_relational t = [] := by
    unfold extract_relational
    simp only [hb]
    split
    · rw [List.flatMap_eq_nil_iff]
      intro ab _
      simp
    · rfl
  unfold extractTable
  rw [h1, h2, h3]
  rfl

/-- Claim C7: a table-level query failure empties that table's stream and
excludes it from the results, while every other table's records are
unchanged — the run is not terminated. -/
theorem broken_table_is_isolated (ts1 ts2 : List Table) (bt : Table) (hb : bt.broken = true) :
    extractTable bt = [] ∧ run_all (ts1 ++ bt :: ts2) = run_all (ts1 ++ ts2) := by
  refine ⟨extractTable_broken bt hb, ?_⟩
  unfold run_all
  rw [List.flatMap_append, List.flatMap_cons, extractTable_broken bt hb,
    List.nil_append, ← List.flatMap_append]

/-- Claim C7 witness: a broken copy of the scenario table drops out of the
run while the sibling table's records survive. -/
theorem broken_table_is_isolated_witness :
    extractTable { messagesTable with name := "virtual_tbl", broken := true } = [] ∧
      run_all ([messagesTable] ++ { messagesTable with name := "virtual_tbl", broken := true } :: []) =
        run_all ([messagesTable] ++ []) :=
  broken_table_is_isolated [messagesTable] []
    { messagesTable with name := "virtual_tbl", broken := true } (by decide)

/-- Splitting a character-list concatenation at a separator absent from
both prefixes is unambiguous. -/
theorem sep_append_inj (a1 : List Char) :
    ∀ (a2 b1 b2 : List Char), '|' ∉ a1 → '|' ∉ a2 →
      a1 ++ '|' :: b1 = a2 ++ '|' :: b2 → a1 = a2 ∧ b1 = b2 := by
  induction a1 with
  | nil =>
    intro a2 b1 b2 _ h2 he
    cases a2 with
    | nil => simpa using he
    | cons c t =>
      simp only [List.nil_append, List.cons_append, List.cons.injEq] at he
      exact absurd (he.1 ▸ List.mem_cons_self c t) h2
  | cons c t ih =>
    intro a2 b1 b2 h1 h2 he
    cases a2 with
    | nil =>
      simp only [List.nil_append, List.cons_append, List.cons.injEq] at he
      exact absurd (he.1 ▸ List.mem_cons_self c t) h1
    | cons c2 t2 =>
      simp only [List.cons_append, List.cons.injEq] at he
      obtain ⟨rfl, he2⟩ := he
      have := ih t2 b1 b2 (fun hm => h1 (List.mem_cons_of_mem _ hm))
        (fun hm => h2 (List.mem_cons_of_mem _ hm)) he2
      exact ⟨by rw [this.1], this.2⟩

/-- Claim C4: with more than one declared primary-key column the resolver
produces the composite spec over the key columns in declared order; the
composite identity of a two-column key is the `|`-joined concatenation of
the text-cast values, and two rows whose key pairs differ (values free of
`|`) always receive distinct identity strings. -/
theorem composite_pk_distinct :
    (∀ cols : List Col,
      2 ≤ ((cols.filter (fun c => c.pk)).map (fun c => c.name)).length →
        pk_expression cols =
          PkSpec.composite ((cols.filter (fun c => c.pk)).map (fun c => c.name))) ∧
    (∀ a b : String, compositeIdentity [a, b] = a ++ "|" ++ b) ∧
    (∀ a1 b1 a2 b2 : String,
      '|' ∉ a1.data → '|' ∉ b1.data → '|' ∉ a2.data → '|' ∉ b2.data →
      (a1, b1) ≠ (a2, b2) →
      compositeIdentity [a1, b1] ≠ compositeIdentity [a2, b2]) := by
  refine ⟨?_, fun a b => rfl, ?_⟩
  · intro cols h
    unfold pk_expression
    rcases hl : (cols.filter (fun c => c.pk)).map (fun c => c.name) with _ | ⟨a, _ | ⟨b, t⟩⟩
    · rw [hl] at h; simp at h
    · rw [hl] at h; simp at h
    · rw [hl]
  · intro a1 b1 a2 b2 h1 _ h2 _ hne heq
    have hd : a1.data ++ '|' :: b1.data = a2.data ++ '|' :: b2.data := by
      have : (a1 ++ "|" ++ b1).data = (a2 ++ "|" ++ b2).data := by
        have e1 : compositeIdentity [a1, b1] = a1 ++ "|" ++ b1 := rfl
        have e2 : compositeIdentity [a2, b2] = a2 ++ "|" ++ b2 := rfl
        rw [e1, e2] at heq
        rw [heq]
      simpa [String.data_append] using this
    obtain ⟨ha, hbb⟩ := sep_append_inj a1.data a2.data b1.data b2.data h1 h2 hd
    apply hne
    have ha' : a1 = a2 := by
      cases a1; cases a2; exact congrArg String.mk ha
    have hb' : b1 = b2 := by
      cases b1; cases b2; exact congrArg String.mk hbb
    rw [ha', hb']

/-- Claim C4 witness: the spec's own example — key pairs `(1, "x")` and
`(1, "y")` get distinct identities, and a two-key table resolves to the
composite spec. -/
theorem composite_pk_distinct_witness :
    compositeIdentity ["1", "x"] ≠ compositeIdentity ["1", "y"] ∧
      pk_expression [{ name := "a", type := "INT", pk := true },
        { name := "b", type := "TEXT", pk := true }] = PkSpec.composite ["a", "b"] :=
  ⟨composite_pk_distinct.2.2 "1" "x" "1" "y" (by decide) (by decide) (by decide) (by decide)
      (by decide),
    composite_pk_distinct.1 _ (by decide)⟩

/-- Reduction of the temporal detector on a one-column integer table: the
numeric path contributes a `UnixEpoch` record exactly when `epoch_to_iso`
succeeds, and the text path runs only under the time-name hint. -/
theorem extract_temporal_intColumn (nm : String) (rid i : Int) :
    extract_temporal (intColumnTable nm rid i) =
      dedupe ((match epoch_to_iso i with
          | some iso => [{ entity_type := "Temporal", subtype := "UnixEpoch", value := iso,
                           table := "t", rowid := toString rid, column := nm,
                           raw := some (toString i) }]
          | none => []) ++
        (if looks_like_time_column nm = true then
          (if iso8601Search (toString i) = true then
            [{ entity_type := "Temporal", subtype := "ISO8601", value := toString i,
               table := "t", rowid := toString rid, column := nm }]
          else [])
        else [])) := by
  have e1 : (type_norm "INT" == "INT") = true := by decide
  have e2 : (type_norm "INT" == "TEXT") = false := by decide
  have hfetch : fetch_distinct (intColumnTable nm rid i) nm =
      [(SqlVal.intv rid, SqlVal.intv i)] := by
    simp [fetch_distinct, intColumnTable, getCell]
  unfold extract_temporal
  rw [show (intColumnTable nm rid i).cols = [{ name := nm, type := "INT", pk := false }] from
    rfl]
  simp only [List.flatMap_cons, List.flatMap_nil, List.append_nil, e1, e2,
    Bool.true_or, Bool.false_or, eq_self_iff_true, if_true]
  rw [hfetch]
  simp only [List.flatMap_cons, List.flatMap_nil, List.append_nil, List.filterMap_cons,
    List.filterMap_nil, pyInt, pyStr]
  rw [show (intColumnTable nm rid i).name = "t" from rfl]
  by_cases hl : looks_like_time_column nm = true
  · rw [if_pos hl, if_pos hl]
    by_cases hi : iso8601Search (toString i) = true
    · rw [if_pos hi, if_pos hi]
    · rw [if_neg hi, if_neg hi]
  · rw [if_neg hl, if_neg hl]

/-- Claim C2 counterexample: the numeric value 100 (well below 946684800)
still produces a UnixEpoch finding, because the code's sanity window is the
years 1970-2100, not 2000-2030. -/
theorem epoch_window_counterexample :
    (∃ r ∈ extract_temporal (intColumnTable "sent_at" 1 100), r.subtype = "UnixEpoch") ∧
      ¬(946684800 < (100 : Int) ∧ (100 : Int) < 1893456000) := by
  decide

/-- Claim C2, amended: a scanned numeric value yields a UnixEpoch record
iff, after the ms/s disambiguation (values greater than `10^12` are divided
by 1000), the seconds value lies in `[0, 4133980800)` — the UTC years
1970..2100 — regardless of whether the column name matches the
time-keyword heuristic; outside that window nothing is reported. -/
theorem unix_epoch_range_gate :
    (∀ ts : Int, (epoch_to_iso ts).isSome = true ↔
        (0 ≤ epochSeconds ts ∧ epochSeconds ts < 4133980800)) ∧
    (∀ (nm : String) (rid i : Int),
        (∃ r ∈ extract_temporal (intColumnTable nm rid i), r.subtype = "UnixEpoch") ↔
          (0 ≤ epochSeconds i ∧ epochSeconds i < 4133980800)) := by
  refine ⟨epoch_to_iso_isSome, ?_⟩
  intro nm rid i
  rw [extract_temporal_intColumn]
  cases hep : epoch_to_iso i with
  | some iso =>
    constructor
    · intro _
      exact (epoch_to_iso_isSome i).mp (by rw [hep]; rfl)
    · intro _
      rw [List.singleton_append]
      refine ⟨{ entity_type := "Temporal", subtype := "UnixEpoch", value := iso,
                table := "t", rowid := toString rid, column := nm,
                raw := some (toString i) }, ?_, rfl⟩
      rw [show ∀ x l, dedupe (x :: l) = x :: dedupeAux [key6 x] l from fun x l => rfl]
      exact List.mem_cons_self _ _
  | none =>
    rw [List.nil_append]
    constructor
    · rintro ⟨r, hr, hsub⟩
      exfalso
      have hrt := (dedupeAux_sublist [] _).subset hr
      by_cases hl : looks_like_time_column nm = true
      · rw [if_pos hl] at hrt
        by_cases hi : iso8601Search (toString i) = true
        · rw [if_pos hi] at hrt
          rcases List.mem_singleton.mp hrt with rfl
          have hs : ("ISO8601" : String) = "UnixEpoch" := hsub
          exact absurd hs (by decide)
        · rw [if_neg hi] at hrt
          simp at hrt
      · rw [if_neg hl] at hrt
        simp at hrt
    · intro hrange
      exact absurd ((epoch_to_iso_isSome i).mpr hrange) (by rw [hep]; simp)

/-- Inserting into the score-sorted prefix permutes a cons. -/
theorem insertByScore_perm (x : String × String) (l : List (String × String)) :
    (insertByScore x l).Perm (x :: l) := by
  induction l with
  | nil => exact List.Perm.refl _
  | cons y ys ih =>
    simp only [insertByScore]
    split
    · exact List.Perm.refl _
    · exact (List.Perm.cons y ih).trans (List.Perm.swap x y ys)

/-- Membership under `insertByScore`. -/
theorem mem_insertByScore {x z : String × String} {l : List (String × String)} :
    z ∈ insertByScore x l ↔ z = x ∨ z ∈ l := by
  have := (insertByScore_perm x l).mem_iff (a := z)
  simpa using this

/-- `insertByScore` preserves the descending-score ordering. -/
theorem insertByScore_sorted (x : String × String) (l : List (String × String))
    (h : List.Pairwise (fun p q => pairScore q ≤ pairScore p) l) :
    List.Pairwise (fun p q => pairScore q ≤ pairScore p) (insertByScore x l) := by
  induction l with
  | nil => simp [insertByScore]
  | cons y ys ih =>
    rcases List.pairwise_cons.mp h with ⟨hy, hys⟩
    simp only [insertByScore]
    split
    · rename_i hscore
      refine List.pairwise_cons.mpr ⟨?_, h⟩
      intro z hz
      rcases List.mem_cons.mp hz with rfl | hz'
      · exact hscore
      · exact le_trans (hy z hz') hscore
    · rename_i hscore
      refine List.pairwise_cons.mpr ⟨?_, ih hys⟩
      intro z hz
      rcases mem_insertByScore.mp hz with rfl | hz'
      · omega
      · exact hy z hz'

/-- The sorted pair list is a permutation of the pair list. -/
theorem foldr_insertByScore_perm (l : List (String × String)) :
    (l.foldr insertByScore []).Perm l := by
  induction l with
  | nil => exact List.Perm.refl _
  | cons x xs ih => exact (insertByScore_perm x _).trans (List.Perm.cons x ih)

/-- The sorted pair list is ordered by descending score. -/
theorem foldr_insertByScore_sorted (l : List (String × String)) :
    List.Pairwise (fun p q => pairScore q ≤ pairScore p) (l.foldr insertByScore []) := by
  induction l with
  | nil => simp
  | cons x xs ih => exact insertByScore_sorted x _ ih

/-- Claim C5: with at least two id-like columns, the formed pairs are
exactly the ordered pairs of distinct id-like columns; each pair's score is
the sum of the source-side and destination-side keyword ranks; at most the
top two pairs (by descending score) are retained, every retained pair
outranks every dropped pair, and the emitted records are exactly one
`"<colA>-><colB>"` / `"<valA>-><valB>"` record per retained pair and per
row where both columns are non-null. -/
theorem relational_pairing_claim (t : Table) (h2 : 2 ≤ (idColsOf t).length)
    (hb : t.broken = false) :
    (∀ p : String × String,
      p ∈ relPairs (idColsOf t) ↔ (p.1 ∈ idColsOf t ∧ p.2 ∈ idColsOf t ∧ p.1 ≠ p.2)) ∧
    (∀ a b : String, pairScore (a, b) = kwScore a SEND_PRIORITY + kwScore b RECV_PRIORITY) ∧
    ((sortedRelPairs (idColsOf t)).take 2).length ≤ 2 ∧
    (∀ p ∈ (sortedRelPairs (idColsOf t)).take 2, p ∈ relPairs (idColsOf t)) ∧
    (∀ p ∈ (sortedRelPairs (idColsOf t)).take 2, ∀ q ∈ (sortedRelPairs (idColsOf t)).drop 2,
      pairScore q ≤ pairScore p) ∧
    (∀ r : EvidenceRecord, r ∈ extract_relational t ↔
      ∃ ab ∈ (sortedRelPairs (idColsOf t)).take 2, ∃ row ∈ t.rows,
        getCell row ab.1 ≠ SqlVal.null ∧ getCell row ab.2 ≠ SqlVal.null ∧
        r = { entity_type := "Relational", subtype := ab.1 ++ "->" ++ ab.2,
              value := pyStr (getCell row ab.1) ++ "->" ++ pyStr (getCell row ab.2),
              table := t.name, rowid := pyStr row.rid, column := ab.1 ++ "," ++ ab.2 }) := by
  refine ⟨?_, fun a b => rfl, List.length_take_le 2 _, ?_, ?_, ?_⟩
  · intro p
    unfold relPairs
    simp only [List.mem_flatMap, List.mem_filterMap]
    constructor
    · rintro ⟨a, ha, b, hbm, hif⟩
      by_cases hab : a ≠ b
      · rw [if_pos hab] at hif
        obtain rfl := Option.some.inj hif
        exact ⟨ha, hbm, hab⟩
      · rw [if_neg hab] at hif
        exact absurd hif (by simp)
    · rintro ⟨h1, hmid, h3⟩
      refine ⟨p.1, h1, p.2, hmid, ?_⟩
      rw [if_pos h3]
  · intro p hp
    have hmem : p ∈ sortedRelPairs (idColsOf t) := List.mem_of_mem_take hp
    exact (foldr_insertByScore_perm (relPairs (idColsOf t))).subset hmem
  · intro p hp q hq
    have hs := foldr_insertByScore_sorted (relPairs (idColsOf t))
    have hsplit : sortedRelPairs (idColsOf t) =
        (sortedRelPairs (idColsOf t)).take 2 ++ (sortedRelPairs (idColsOf t)).drop 2 :=
      (List.take_append_drop 2 _).symm
    rw [show (relPairs (idColsOf t)).foldr insertByScore [] = sortedRelPairs (idColsOf t) from
      rfl, hsplit] at hs
    exact (List.pairwise_append.mp hs).2.2 p hp q hq
  · intro r
    unfold extract_relational
    simp only []
    rw [if_pos h2]
    simp only [hb, Bool.false_eq_true, if_false, List.mem_flatMap, List.mem_filterMap]
    constructor
    · rintro ⟨ab, hab, row, hrow, hif⟩
      by_cases hc : getCell row ab.1 ≠ SqlVal.null ∧ getCell row ab.2 ≠ SqlVal.null
      · rw [if_pos hc] at hif
        obtain rfl := Option.some.inj hif
        exact ⟨ab, hab, row, hrow, hc.1, hc.2, rfl⟩
      · rw [if_neg hc] at hif
        exact absurd hif (by simp)
    · rintro ⟨ab, hab, row, hrow, h1, hmid, rfl⟩
      exact ⟨ab, hab, row, hrow, by rw [if_pos ⟨h1, hmid⟩]⟩

/-- Claim C5 witness: pair-formation characterization, retained-pair bound
and score ordering, applied to the scenario table's two id-like columns. -/
theorem relational_pairing_claim_witness :
    (("sender_id", "recipient_id") ∈ relPairs (idColsOf messagesTable) ↔
      (("sender_id" : String) ∈ idColsOf messagesTable ∧
        ("recipient_id" : String) ∈ idColsOf messagesTable ∧
        ("sender_id" : String) ≠ "recipient_id")) ∧
    ((sortedRelPairs (idColsOf messagesTable)).take 2).length ≤ 2 :=
  ⟨(relational_pairing_claim messagesTable (by decide) rfl).1 ("sender_id", "recipient_id"),
    (relational_pairing_claim messagesTable (by decide) rfl).2.2.1⟩

/-- Claim C10: the identifier extractor has a single shared column gate —
normalized type `TEXT`, or an e-mail-hint name, or a phone-hint name; every
emitted record comes from a gated column.  A non-Text `phone` column is
scanned by the UUID (and Email) detectors, a non-Text `email` column is
probed for phones, and a non-Text `uuid` column — although it matches the
UUID hint vocabulary — is not scanned at all: the UUID vocabulary is never
consulted by the gate. -/
theorem identifier_scan_gate :
    (∀ (t : Table) (r : EvidenceRecord), r ∈ extract_identifiers t →
      ∃ c ∈ t.cols, r.column = c.name ∧
        (type_norm c.type = "TEXT" ∨ looks_like_email_column c.name = true ∨
          looks_like_phone_column c.name = true)) ∧
    extract_identifiers phoneUuidTable = [
      { entity_type := "Identifier", subtype := "UUID",
        value := "123e4567-e89b-12d3-a456-426614174000", table := "p", rowid := "1",
        column := "phone" }] ∧
    extract_identifiers emailPhoneTable = [
      { entity_type := "Identifier", subtype := "Phone", value := "+5551234567",
        table := "e", rowid := "1", column := "email" }] ∧
    (looks_like_uuid_column "uuid" = true ∧ extract_identifiers uuidNamedTable = []) := by
  refine ⟨?_, by decide, by decide, by decide⟩
  intro t r hr
  unfold extract_identifiers at hr
  rw [List.mem_flatMap] at hr
  obtain ⟨c, hc, hbody⟩ := hr
  by_cases hgate : (type_norm c.type != "TEXT" && !looks_like_email_column c.name &&
      !looks_like_phone_column c.name) = true
  · rw [if_pos hgate] at hbody
    exact absurd hbody (List.not_mem_nil r)
  · rw [if_neg hgate] at hbody
    refine ⟨c, hc, ?_, ?_⟩
    · rw [List.mem_flatMap] at hbody
      obtain ⟨rv, _, hrec⟩ := hbody
      rcases List.mem_append.mp hrec with hrec1 | hrec2
      · rcases List.mem_append.mp hrec1 with he | hu
        · obtain ⟨m, _, rfl⟩ := List.mem_map.mp he
          rfl
        · obtain ⟨m, _, rfl⟩ := List.mem_map.mp hu
          rfl
      · revert hrec2
        split
        · intro h
          rcases List.mem_singleton.mp h with rfl
          rfl
        · intro h
          exact absurd h (List.not_mem_nil r)
    · by_cases h1 : type_norm c.type = "TEXT"
      · exact Or.inl h1
      by_cases hbE : looks_like_email_column c.name = true
      · exact Or.inr (Or.inl hbE)
      by_cases hbP : looks_like_phone_column c.name = true
      · exact Or.inr (Or.inr hbP)
      exfalso
      apply hgate
      simp only [Bool.and_eq_true, bne_iff_ne, Bool.not_eq_true']
      exact ⟨⟨h1, Bool.eq_false_iff.mpr hbE⟩, Bool.eq_false_iff.mpr hbP⟩

/-- Claim C10 witness: the gate conjunct applied to the concrete UUID
record extracted from the non-Text `phone` column. -/
theorem identifier_scan_gate_witness :
    ∃ c ∈ phoneUuidTable.cols,
      ({ entity_type := "Identifier", subtype := "UUID",
         value := "123e4567-e89b-12d3-a456-426614174000", table := "p", rowid := "1",
         column := "phone" } : EvidenceRecord).column = c.name ∧
        (type_norm c.type = "TEXT" ∨ looks_like_email_column c.name = true ∨
          looks_like_phone_column c.name = true) :=
  identifier_scan_gate.1 phoneUuidTable
    { entity_type := "Identifier", subtype := "UUID",
      value := "123e4567-e89b-12d3-a456-426614174000", table := "p", rowid := "1",
      column := "phone" } (by decide)
